import Mathlib

/-!
Shallow embedding of `elephantblog/views.py`: the date-detail view of a blog
application built on a Django-style framework.  Pure fragments of the Python
code (the date-lookup shim, the `prepare`/`finalize` content pipelines, the
queryset selection, `render_to_response`, `get`/`post`) are translated into
executable Lean definitions, and the behavioural claims about them are proved
as theorems below.  Framework collaborators that the module calls but does not
define (Django's own `_date_lookup_for_field`, `SingleObjectMixin.get_object`)
are modelled from the specification and marked as such.
-/

namespace Elephantblog

/-- Microseconds in one day; a Python `datetime.date` D is identified with the
day number D, and `datetime.datetime.combine(D, t)` with
`D * microsPerDay + t` microseconds. -/
def microsPerDay : Nat := 86400000000

/-- Python `datetime.time.min` = 00:00:00, as microseconds past midnight. -/
def timeMinMicros : Nat := 0

/-- Python `datetime.time.max` = 23:59:59.999999, as microseconds past midnight. -/
def timeMaxMicros : Nat := 86399999999

/-- A Python `datetime.datetime` value: an instant (microseconds, read as the
naive wall-clock value) together with its `tzinfo` (none = naive). -/
structure PyDatetime where
  micros : Nat
  tzinfo : Option String
deriving DecidableEq, Repr

/-- Python `datetime.datetime.combine(date, time)`: a naive datetime on day `date`
at `timeMicros` past midnight. -/
def datetimeCombine (date : Nat) (timeMicros : Nat) : PyDatetime :=
  ⟨date * microsPerDay + timeMicros, none⟩

/-- The call `timezone.make_aware(value, timezone.utc)`: attach the UTC `tzinfo`. -/
def makeAwareUtc (dt : PyDatetime) : PyDatetime :=
  ⟨dt.micros, some "UTC"⟩

/-- The kind of the model field returned by `_meta.get_field(date_field)`. -/
inductive FieldKind where
  | dateTimeField
  | dateField
deriving DecidableEq, Repr

/-- A model field: its name and whether it is a `DateTimeField`. -/
structure Field where
  name : String
  kind : FieldKind
deriving DecidableEq, Repr

/-- The ORM filter dictionary produced by a date lookup: either
`{'<name>__range': (lo, hi)}` or `{'<name>': date}`. -/
inductive Lookup where
  | range (name : String) (lo hi : PyDatetime)
  | exact (name : String) (date : Nat)
deriving DecidableEq, Repr

/-- The patched `_date_lookup_for_field` defined inside
`DateDetailView.get_object`: for a `DateTimeField` an inclusive `__range`
between `combine(date, time.min)` and `combine(date, time.max)`, both made
timezone-aware in UTC; for any other field, equality on the date. -/
def date_lookup_for_field (field : Field) (date : Nat) : Lookup :=
  match field.kind with
  | .dateTimeField =>
      .range field.name
        (makeAwareUtc (datetimeCombine date timeMinMicros))
        (makeAwareUtc (datetimeCombine date timeMaxMicros))
  | .dateField => .exact field.name date

/-- Modelled from the spec: Django's own `dates._date_lookup_for_field`, used
by `get_object` when timezone support is disabled — "construct a
half-open-like inclusive range `[midnight(D), end-of-day(D)]`" with naive
bounds for a datetime field, and equality for a bare date field. -/
def django_date_lookup_for_field (field : Field) (date : Nat) : Lookup :=
  match field.kind with
  | .dateTimeField =>
      .range field.name
        (datetimeCombine date timeMinMicros)
        (datetimeCombine date timeMaxMicros)
  | .dateField => .exact field.name date

/-- The lookup actually used by `DateDetailView.get_object`: the patched
UTC-aware `_date_lookup_for_field` when `settings.USE_TZ` holds, Django's
naive one otherwise. -/
def get_object_date_lookup (useTZ : Bool) (field : Field) (date : Nat) :
    Lookup :=
  if useTZ then date_lookup_for_field field date
  else django_date_lookup_for_field field date

/-- Method `DateDetailView._make_date_lookup_arg`: when the date field is a
`DateTimeField`, convert the date to `combine(value, time.min)` and, when
timezone support is enabled, make it aware in UTC; otherwise pass the date
through. -/
inductive DateOrDatetime where
  | date (d : Nat)
  | datetime (dt : PyDatetime)
deriving DecidableEq, Repr

def make_date_lookup_arg (usesDatetimeField useTZ : Bool) (value : Nat) :
    DateOrDatetime :=
  if usesDatetimeField then
    let v := datetimeCombine value timeMinMicros
    .datetime (if useTZ then makeAwareUtc v else v)
  else
    .date value

/-- Whether a stored datetime value (microseconds) satisfies the ORM filter:
a `__range` lookup is inclusive on both bounds; an exact date lookup compares
the value's calendar day. -/
def lookupAdmits (l : Lookup) (storedMicros : Nat) : Bool :=
  match l with
  | .range _ lo hi => decide (lo.micros ≤ storedMicros) &&
      decide (storedMicros ≤ hi.micros)
  | .exact _ d => storedMicros / microsPerDay == d

/-- An `Entry` row as the detail view sees it: primary key, URL slug, the
`published_on` timestamp (microseconds, day number `publishedMicros /
microsPerDay`), and the `active()` flag. -/
structure Entry where
  pk : Nat
  slug : String
  publishedMicros : Nat
  isActive : Bool
  categories : List Nat
deriving DecidableEq, Repr

/-- The shape of a queryset over `Entry`: whether the `active()` manager
filter was applied and whether the `entry_list_lookup_related` transform
was attached. -/
structure QuerySet where
  onlyActive : Bool
  transformLookup : Bool
deriving DecidableEq, Repr

/-- The queryset `Entry.objects.all()`. -/
def allEntriesQS : QuerySet := ⟨false, false⟩

/-- The queryset `Entry.objects.active()`. -/
def activeEntriesQS : QuerySet := ⟨true, false⟩

/-- Method `ElephantblogMixin.get_queryset`:
`Entry.objects.active().transform(entry_list_lookup_related)`. -/
def mixin_get_queryset : QuerySet := ⟨true, true⟩

/-- A requesting user: `is_authenticated()` and `is_staff`. -/
structure User where
  isAuthenticated : Bool
  isStaff : Bool
deriving DecidableEq, Repr

/-- Truthiness of `request.GET.get('eb_preview')`: the key may be absent
(`none`) or hold a string, falsy exactly when empty. -/
def previewTruthy : Option String → Bool
  | none => false
  | some s => !(s.isEmpty)

/-- Method `DateDetailView.get_queryset`: the unfiltered queryset when the user is
authenticated, is staff and the `eb_preview` query parameter is truthy;
otherwise `Entry.objects.active()`. -/
def detail_get_queryset (user : User) (ebPreview : Option String) : QuerySet :=
  if user.isAuthenticated && user.isStaff && previewTruthy ebPreview then
    allEntriesQS
  else
    activeEntriesQS

/-- Modelled from the spec: evaluating a queryset against the entry table.
The `active()` manager filter keeps active entries; the related-lookup
transform is a prefetch optimisation that does not change membership. -/
def applyQuerySet (qs : QuerySet) (entries : List Entry) : List Entry :=
  if qs.onlyActive then entries.filter (fun e => e.isActive) else entries

/-- The error outcomes a view method can signal: an `Http404` (a failed
object lookup or a stored content-block not-found with its payload), the
ORM's `MultipleObjectsReturned`, or a `NameError`.  The future-date branch of
`get_object` intends to raise `Http404`, but its message evaluates the name
`_`, which is never imported or defined in the module, so that branch
actually raises `NameError`. -/
inductive ViewError where
  | nameError
  | doesNotExist
  | fromContent (e : Nat)
  | multipleObjects
deriving DecidableEq, Repr

/-- Whether a `ViewError` surfaces as HTTP 404 (`MultipleObjectsReturned`
and `NameError` surface as server errors instead). -/
def ViewError.isHttp404 : ViewError → Bool
  | .multipleObjects => false
  | .nameError => false
  | _ => true

/-- Whether an entry's stored `published_on` value satisfies the filter. -/
def entryMatchesLookup (l : Lookup) (e : Entry) : Bool :=
  lookupAdmits l e.publishedMicros

/-- Modelled from the spec: the framework's `SingleObjectMixin.get_object`
(the `super(dates.BaseDetailView, self).get_object(queryset=qs)` call) —
resolve the unique entry of the queryset matching the URL slug, raising
`Http404` when none matches and `MultipleObjectsReturned` when several do. -/
def singleObjectGetObject (qs : List Entry) (slug : String) :
    Except ViewError Entry :=
  match qs.filter (fun e => e.slug == slug) with
  | [] => .error .doesNotExist
  | [e] => .ok e
  | _ => .error .multipleObjects

/-- Method `DateDetailView.get_object` (the Django-1.4 compatibility body):
when `allow_future` is off and the date is after today the code executes
`raise Http404(_(u"Future ..."))` — but evaluating the message calls the
undefined name `_`, so the branch raises `NameError` rather than `Http404`.
Otherwise it filters the queryset by the date lookup (UTC-aware under
`USE_TZ`) and resolves the single object by slug. -/
def get_object (useTZ allowFuture : Bool) (today date : Nat) (field : Field)
    (slug : String) (qs : List Entry) : Except ViewError Entry :=
  if !allowFuture && decide (date > today) then
    .error .nameError
  else
    let lookup := get_object_date_lookup useTZ field date
    singleObjectGetObject (qs.filter (entryMatchesLookup lookup)) slug

/-- A response value flowing through the detail view: a rendered template
response, a raw response produced by a content block, or — in
application-content ("inheritance 2.0") mode — the `(template_names, context)`
tuple, which is not an `HttpResponse`.  The `neverCache` flag records whether
`add_never_cache_headers` was applied. -/
inductive Response where
  | html (tpls : List String) (ctx : Nat) (neverCache : Bool)
  | blockResponse (id : Nat) (neverCache : Bool)
  | templateCtx (tpls : List String) (ctx : Nat)
deriving DecidableEq, Repr

/-- The check `isinstance(response, HttpResponse)`. -/
def Response.isHttpResponse : Response → Bool
  | .templateCtx _ _ => false
  | _ => true

/-- The `neverCache` flag of a response (`false` for a non-response value). -/
def Response.neverCache : Response → Bool
  | .html _ _ nc => nc
  | .blockResponse _ nc => nc
  | .templateCtx _ _ => false

/-- The call `add_never_cache_headers(response)`: set the no-cache headers in place. -/
def addNeverCacheHeaders : Response → Response
  | .html t c _ => .html t c true
  | .blockResponse i _ => .blockResponse i true
  | .templateCtx t c => .templateCtx t c

/-- Method `ElephantblogMixin.render_to_response`: when the request's
`_feincms_extra_context` (absent attribute = `{}`) holds the key
`app_config`, hand back the `(template_names, context)` pair; otherwise
delegate to the framework's rendering. -/
def render_to_response (extraContextKeys : Option (List String))
    (templateNames : List String) (ctx : Nat) : Response :=
  if (extraContextKeys.getD []).contains "app_config" then
    .templateCtx templateNames ctx
  else
    .html templateNames ctx false

/-- The observable behaviour of one content block's `process(request, view)`
call: it raises `Http404`, or returns a value — `True`, `False`, a truthy
non-boolean (treated as a response), or a falsy non-boolean such as `None`. -/
inductive ProcessResult where
  | raises (e : Nat)
  | retTrue
  | retFalse
  | truthy (r : Response)
  | falsy
deriving DecidableEq, Repr

/-- The outcome of `DateDetailView.prepare`: a response returned to the
visitor, a re-raised stored `Http404`, or `None`. -/
inductive PrepareOutcome where
  | response (r : Response)
  | raised (e : Nat)
  | nothing
deriving DecidableEq, Repr

/-- The loop of `DateDetailView.prepare`, carrying the stored `http404`
exception and the `successful` flag: a boolean return overwrites
`successful`; a truthy non-boolean is returned at once; a raised `Http404` is
stored; after the loop the stored exception is re-raised unless `successful`
holds. -/
def prepareLoop : List ProcessResult → Option Nat → Bool → PrepareOutcome
  | [], http404, successful =>
      if successful then .nothing
      else
        match http404 with
        | some e => .raised e
        | none => .nothing
  | b :: rest, http404, successful =>
      match b with
      | .raises e => prepareLoop rest (some e) successful
      | .retTrue => prepareLoop rest http404 true
      | .retFalse => prepareLoop rest http404 false
      | .truthy r => .response r
      | .falsy => prepareLoop rest http404 successful

/-- Method `DateDetailView.prepare`, run over the `process`-capable content blocks
of the resolved entry, with `http404 = None` and `successful = False`. -/
def prepare (blocks : List ProcessResult) : PrepareOutcome :=
  prepareLoop blocks none false

/-- One `finalize`-capable content block: its identity and what its
`finalize(request, response)` call returns (`none` = a falsy value). -/
structure FinalizeBlock where
  id : Nat
  result : Option Response
deriving DecidableEq, Repr

/-- The loop of `DateDetailView.finalize` over `finalize`-capable blocks:
the first truthy return replaces the response.  The second component records
which blocks were invoked. -/
def finalizeRun : List FinalizeBlock → Option Response × List Nat
  | [] => (none, [])
  | b :: rest =>
      match b.result with
      | some r => (some r, [b.id])
      | none =>
          let rec_result := finalizeRun rest
          (rec_result.1, b.id :: rec_result.2)

/-- The read `request.session.get('frontend_editing', False)` behind
`hasattr(self.request, "session")`: `none` models a request without a
session attribute. -/
def frontendEditing : Option Bool → Bool
  | none => false
  | some b => b

/-- Method `DateDetailView.finalize`: a non-`HttpResponse` value is returned
unchanged; otherwise the first truthy block return replaces the response, and
only when no block did so are no-cache headers added under the
frontend-editing session flag.  The second component lists the content blocks
whose `finalize` hook ran. -/
def finalize (session : Option Bool) (blocks : List FinalizeBlock)
    (response : Response) : Response × List Nat :=
  if !response.isHttpResponse then
    (response, [])
  else
    match finalizeRun blocks with
    | (some r, invoked) => (r, invoked)
    | (none, invoked) =>
        (if frontendEditing session then addNeverCacheHeaders response
         else response, invoked)

/-- Everything a single request to the detail view depends on. -/
structure ViewInput where
  user : User
  ebPreview : Option String
  session : Option Bool
  extraContextKeys : Option (List String)
  useTZ : Bool
  allowFuture : Bool
  today : Nat
  date : Nat
  slug : String
  field : Field
  entries : List Entry
  processBlocks : List ProcessResult
  finalizeBlocks : List FinalizeBlock
  templateNames : List String
deriving DecidableEq, Repr

/-- Method `DateDetailView.get`: resolve the object, run `prepare` (whose truthy
result is handed straight back), otherwise render the template context for
the object and run `finalize` on the rendered response. -/
def viewGet (i : ViewInput) : Except ViewError (Response × List Nat) :=
  match get_object i.useTZ i.allowFuture i.today i.date i.field i.slug
      (applyQuerySet (detail_get_queryset i.user i.ebPreview) i.entries) with
  | .error e => .error e
  | .ok obj =>
      match prepare i.processBlocks with
      | .raised e => .error (.fromContent e)
      | .response r => .ok (r, [])
      | .nothing =>
          let rendered := render_to_response i.extraContextKeys
            i.templateNames obj.pk
          .ok (finalize i.session i.finalizeBlocks rendered)

/-- Method `DateDetailView.post`: `return self.get(request, *args, **kwargs)`. -/
def viewPost (i : ViewInput) : Except ViewError (Response × List Nat) :=
  viewGet i

/-- A `Category` row: primary key and its translated slugs. -/
structure Category where
  id : Nat
  slugs : List String
deriving DecidableEq, Repr

/-- Modelled from the spec: Django's `QuerySet.get` via `get_object_or_404`
on `translations__slug=slug` — `Http404` when no category matches,
`MultipleObjectsReturned` when several do. -/
def categoryGetOr404 (cats : List Category) (slug : String) :
    Except ViewError Category :=
  match cats.filter (fun c => c.slugs.contains slug) with
  | [] => .error .doesNotExist
  | [c] => .ok c
  | _ => .error .multipleObjects

/-- Method `CategoryArchiveIndexView.get_queryset`: resolve the category from the
URL slug with `get_object_or_404`, then filter the mixin's active queryset
by membership of that category. -/
def category_get_queryset (cats : List Category) (slug : String)
    (entries : List Entry) : Except ViewError (List Entry) :=
  match categoryGetOr404 cats slug with
  | .error e => .error e
  | .ok cat =>
      .ok ((applyQuerySet mixin_get_queryset entries).filter
        (fun e => e.categories.contains cat.id))

/-- Whether a process result is a truthy non-boolean (a response). -/
def ProcessResult.isTruthy : ProcessResult → Bool
  | .truthy _ => true
  | _ => false

/-- The first truthy non-boolean value returned along the block list. -/
def firstTruthy : List ProcessResult → Option Response
  | [] => none
  | b :: rest =>
      match b with
      | .truthy r => some r
      | _ => firstTruthy rest

/-- The stored `http404` after running the whole block list from a given
store: each raising block overwrites it. -/
def lastRaise : Option Nat → List ProcessResult → Option Nat
  | h404, [] => h404
  | h404, b :: rest =>
      match b with
      | .raises e => lastRaise (some e) rest
      | _ => lastRaise h404 rest

/-- The `successful` flag after running the whole block list from a given
flag: each boolean return overwrites it. -/
def lastSuccess : Bool → List ProcessResult → Bool
  | s, [] => s
  | s, b :: rest =>
      match b with
      | .retTrue => lastSuccess true rest
      | .retFalse => lastSuccess false rest
      | _ => lastSuccess s rest

theorem prepareLoop_eq (blocks : List ProcessResult) :
    ∀ (h404 : Option Nat) (s : Bool),
    prepareLoop blocks h404 s =
      match firstTruthy blocks with
      | some r => .response r
      | none =>
          if lastSuccess s blocks then .nothing
          else
            match lastRaise h404 blocks with
            | some e => .raised e
            | none => .nothing := by
  induction blocks with
  | nil => intro h404 s; rfl
  | cons b rest ih =>
      intro h404 s
      cases b <;>
        simp only [prepareLoop, firstTruthy, lastSuccess, lastRaise, ih]

theorem firstTruthy_eq_none (blocks : List ProcessResult) :
    firstTruthy blocks = none ↔
      blocks.all (fun b => ! b.isTruthy) = true := by
  induction blocks with
  | nil => simp [firstTruthy]
  | cons b rest ih =>
      cases b <;> simp [firstTruthy, ProcessResult.isTruthy, ih]

theorem firstTruthy_append (pre post : List ProcessResult) (r : Response)
    (h : pre.all (fun b => ! b.isTruthy) = true) :
    firstTruthy (pre ++ ProcessResult.truthy r :: post) = some r := by
  induction pre with
  | nil => rfl
  | cons b rest ih =>
      cases b <;> simp_all [firstTruthy, ProcessResult.isTruthy]

/-- C1: in the detail view's prepare phase, if some content block raises
`Http404` but a later block's `process()` returns a non-boolean truthy
response, the first such response short-circuits the pipeline and becomes the
outcome of `prepare`; the stored not-found is never re-raised. -/
theorem prepare_later_response_wins (pre post : List ProcessResult)
    (r : Response) (e : Nat)
    (hpre : pre.all (fun b => ! b.isTruthy) = true)
    (hraise : ProcessResult.raises e ∈ pre) :
    prepare (pre ++ ProcessResult.truthy r :: post) =
      PrepareOutcome.response r := by
  have hft := firstTruthy_append pre post r hpre
  simp [prepare, prepareLoop_eq, hft]

theorem prepare_later_response_wins_witness :
    ([ProcessResult.raises 3, ProcessResult.retFalse].all
        (fun b => ! b.isTruthy) = true)
    ∧ ProcessResult.raises 3 ∈ [ProcessResult.raises 3, ProcessResult.retFalse]
    ∧ prepare [ProcessResult.raises 3, ProcessResult.retFalse,
        ProcessResult.truthy (Response.blockResponse 7 false),
        ProcessResult.raises 9] =
      PrepareOutcome.response (Response.blockResponse 7 false) :=
  ⟨by decide, by decide,
    prepare_later_response_wins
      [ProcessResult.raises 3, ProcessResult.retFalse]
      [ProcessResult.raises 9] (Response.blockResponse 7 false) 3
      (by decide) (by decide)⟩

/-- C10: given that some block raised `Http404` (the stored exception being
the last one raised), `prepare` re-raises it exactly when no block returned a
non-boolean truthy response and the final `successful` flag — the last
boolean returned, starting from `False` — is not `True`.  In particular a
block returning `False` after an earlier `True` resets the flag, so the
stored not-found is re-raised even though some block had succeeded (see the
witness). -/
theorem prepare_reraise_iff (blocks : List ProcessResult) (e : Nat)
    (hstore : lastRaise none blocks = some e) :
    prepare blocks = PrepareOutcome.raised e ↔
      (blocks.all (fun b => ! b.isTruthy) = true ∧
        lastSuccess false blocks = false) := by
  constructor
  · intro h
    rw [prepare, prepareLoop_eq] at h
    cases hft : firstTruthy blocks with
    | some r => rw [hft] at h; simp at h
    | none =>
        rw [hft, hstore] at h
        refine ⟨(firstTruthy_eq_none blocks).mp hft, ?_⟩
        cases hs : lastSuccess false blocks with
        | false => rfl
        | true => rw [hs] at h; simp at h
  · rintro ⟨hall, hs⟩
    rw [prepare, prepareLoop_eq, (firstTruthy_eq_none blocks).mpr hall,
      hs, hstore]
    rfl

theorem prepare_reraise_iff_witness :
    lastRaise none [ProcessResult.raises 7, ProcessResult.retTrue,
      ProcessResult.retFalse] = some 7
    ∧ prepare [ProcessResult.raises 7, ProcessResult.retTrue,
        ProcessResult.retFalse] = PrepareOutcome.raised 7 :=
  ⟨by decide,
    (prepare_reraise_iff [ProcessResult.raises 7, ProcessResult.retTrue,
      ProcessResult.retFalse] 7 (by decide)).mpr (by decide)⟩

theorem get_object_date_lookup_datetime (tz : Bool) (n : String) (D : Nat) :
    get_object_date_lookup tz ⟨n, .dateTimeField⟩ D =
      Lookup.range n ⟨D * microsPerDay, if tz then some "UTC" else none⟩
        ⟨D * microsPerDay + timeMaxMicros, if tz then some "UTC" else none⟩ := by
  cases tz <;>
    simp [get_object_date_lookup, date_lookup_for_field,
      django_date_lookup_for_field, datetimeCombine, makeAwareUtc,
      timeMinMicros]

theorem lookupAdmits_range (n : String) (a b x : Nat)
    (t1 t2 : Option String) :
    lookupAdmits (Lookup.range n ⟨a, t1⟩ ⟨b, t2⟩) x =
      (decide (a ≤ x) && decide (x ≤ b)) := rfl

/-- C2: the date lookup used by `get_object` for day `D` on a datetime field
is an inclusive `__range` from `D 00:00:00` to the last representable instant
of `D` (`23:59:59.999999`), so it admits timestamps `D 00:00:00` and
`D 23:59:59` and excludes `D+1 00:00:00`; both bounds carry the UTC `tzinfo`
exactly when timezone support is enabled.  For a bare date field the lookup
is equality on `D`, and `_make_date_lookup_arg` likewise produces the
midnight datetime, UTC-aware exactly under `USE_TZ`. -/
theorem date_lookup_day_range (tz : Bool) (n : String) (D : Nat) :
    get_object_date_lookup tz ⟨n, .dateTimeField⟩ D =
      .range n ⟨D * microsPerDay, if tz then some "UTC" else none⟩
        ⟨D * microsPerDay + timeMaxMicros, if tz then some "UTC" else none⟩
    ∧ lookupAdmits (get_object_date_lookup tz ⟨n, .dateTimeField⟩ D)
        (D * microsPerDay) = true
    ∧ lookupAdmits (get_object_date_lookup tz ⟨n, .dateTimeField⟩ D)
        (D * microsPerDay + 86399000000) = true
    ∧ lookupAdmits (get_object_date_lookup tz ⟨n, .dateTimeField⟩ D)
        ((D + 1) * microsPerDay) = false
    ∧ get_object_date_lookup tz ⟨n, .dateField⟩ D = .exact n D
    ∧ make_date_lookup_arg true tz D =
        .datetime ⟨D * microsPerDay, if tz then some "UTC" else none⟩ := by
  refine ⟨get_object_date_lookup_datetime tz n D, ?_, ?_, ?_, ?_, ?_⟩
  · rw [get_object_date_lookup_datetime, lookupAdmits_range]
    simp only [microsPerDay, timeMaxMicros, Bool.and_eq_true,
      decide_eq_true_eq]
    omega
  · rw [get_object_date_lookup_datetime, lookupAdmits_range]
    simp only [microsPerDay, timeMaxMicros, Bool.and_eq_true,
      decide_eq_true_eq]
    omega
  · rw [get_object_date_lookup_datetime, lookupAdmits_range]
    simp only [microsPerDay, timeMaxMicros]
    have h : ¬((D + 1) * 86400000000 ≤ D * 86400000000 + 86399999999) := by
      omega
    rw [decide_eq_false h, Bool.and_false]
  · cases tz <;>
      simp [get_object_date_lookup, date_lookup_for_field,
        django_date_lookup_for_field]
  · cases tz <;>
      simp [make_date_lookup_arg, datetimeCombine, makeAwareUtc,
        timeMinMicros]

/-- C3: evaluating `get_object` at a failing input — `allow_future` off,
today = day 10, requested date = day 11, a queryset holding a matching
active entry.  The claim says the future-date branch raises the not-found
signal (HTTP 404); the code reaches `raise Http404(_(u"Future ..."))`, but
`_` is undefined in the module, so the branch raises `NameError`, which is
not an HTTP 404. -/
theorem get_object_future_nameerror :
    get_object false false 10 11 ⟨"published_on", .dateTimeField⟩ "s"
        [⟨1, "s", 11 * microsPerDay, true, []⟩] =
      Except.error ViewError.nameError
    ∧ ViewError.nameError.isHttp404 = false := ⟨rfl, rfl⟩

theorem finalizeRun_all_none (blocks : List FinalizeBlock)
    (h : blocks.all (fun b => b.result.isNone) = true) :
    (finalizeRun blocks).1 = none := by
  induction blocks with
  | nil => rfl
  | cons b rest ih =>
      simp only [List.all_cons, Bool.and_eq_true] at h
      have hb : b.result = none := Option.isNone_iff_eq_none.mp h.1
      simp [finalizeRun, hb, ih h.2]

/-- C4 counterexample: with the frontend-editing session flag set, a single
finalize-capable block returning a replacement response makes `finalize`
return that replacement immediately — without no-cache headers — refuting
the claim that the final response carries no-cache headers regardless of
content-block output. -/
theorem finalize_frontend_editing_cex :
    frontendEditing (some true) = true
    ∧ finalize (some true) [⟨0, some (Response.blockResponse 5 false)⟩]
        (Response.html ["t"] 1 false) =
      (Response.blockResponse 5 false, [0])
    ∧ (Response.blockResponse 5 false).neverCache = false := by
  refine ⟨rfl, ?_, rfl⟩
  rfl

/-- C4 (amended): whenever the request session's frontend-editing flag is
true and no finalize-capable content block returns a truthy replacement, the
response finally returned by the detail view's finalize carries no-cache
headers. -/
theorem finalize_frontend_editing_nocache (session : Option Bool)
    (blocks : List FinalizeBlock) (response : Response)
    (hsess : frontendEditing session = true)
    (hblocks : blocks.all (fun b => b.result.isNone) = true)
    (hresp : response.isHttpResponse = true) :
    ((finalize session blocks response).1).neverCache = true := by
  have h1 := finalizeRun_all_none blocks hblocks
  cases hfr : finalizeRun blocks with
  | mk fst snd =>
      rw [hfr] at h1
      simp only at h1
      subst h1
      cases response with
      | templateCtx t c => simp [Response.isHttpResponse] at hresp
      | html t c nc =>
          simp [finalize, Response.isHttpResponse, hfr, hsess,
            addNeverCacheHeaders, Response.neverCache]
      | blockResponse i nc =>
          simp [finalize, Response.isHttpResponse, hfr, hsess,
            addNeverCacheHeaders, Response.neverCache]

theorem finalize_frontend_editing_nocache_witness :
    frontendEditing (some true) = true
    ∧ ([⟨0, none⟩] : List FinalizeBlock).all (fun b => b.result.isNone) = true
    ∧ (Response.html ["t"] 1 false).isHttpResponse = true
    ∧ ((finalize (some true) [⟨0, none⟩]
        (Response.html ["t"] 1 false)).1).neverCache = true :=
  ⟨rfl, by decide, rfl,
    finalize_frontend_editing_nocache (some true) [⟨0, none⟩]
      (Response.html ["t"] 1 false) rfl (by decide) rfl⟩

/-- C5 counterexample: for an authenticated staff user without the preview
flag, `DateDetailView.get_queryset` returns `Entry.objects.active()` — the
active filter alone — not the mixin's queryset with the related-object
prefetch transform, refuting the claim that every non-preview case carries
the transform. -/
theorem detail_get_queryset_cex :
    detail_get_queryset ⟨true, true⟩ none = activeEntriesQS
    ∧ activeEntriesQS.transformLookup = false
    ∧ detail_get_queryset ⟨true, true⟩ none ≠ mixin_get_queryset := by
  refine ⟨rfl, rfl, ?_⟩
  decide

/-- C5 (amended): `DateDetailView.get_queryset` returns the unfiltered set of
all entries exactly when the requesting user is authenticated, is staff, and
the preview query-string flag is truthy; in every other case it returns the
active-filtered queryset — without the related-object prefetch transform,
which the detail view's override omits — so inactive entries are retrievable
only under the staff-preview condition. -/
theorem detail_get_queryset_amended (u : User) (p : Option String) :
    (detail_get_queryset u p = allEntriesQS ↔
      (u.isAuthenticated = true ∧ u.isStaff = true ∧ previewTruthy p = true))
    ∧ (detail_get_queryset u p = allEntriesQS ∨
        detail_get_queryset u p = activeEntriesQS)
    ∧ (detail_get_queryset u p).transformLookup = false
    ∧ (∀ (e : Entry) (entries : List Entry), e.isActive = false →
        e ∈ applyQuerySet (detail_get_queryset u p) entries →
        (u.isAuthenticated = true ∧ u.isStaff = true ∧
          previewTruthy p = true)) := by
  by_cases hc : u.isAuthenticated = true ∧ u.isStaff = true ∧
      previewTruthy p = true
  · obtain ⟨h1, h2, h3⟩ := hc
    refine ⟨?_, ?_, ?_, ?_⟩ <;>
      simp [detail_get_queryset, h1, h2, h3, allEntriesQS, activeEntriesQS]
  · have hq : detail_get_queryset u p = activeEntriesQS := by
      rw [detail_get_queryset, if_neg]
      intro h
      simp only [Bool.and_eq_true] at h
      exact hc ⟨h.1.1, h.1.2, h.2⟩
    refine ⟨?_, Or.inr hq, ?_, ?_⟩
    · rw [hq]
      constructor
      · intro h
        exact absurd (by decide : activeEntriesQS ≠ allEntriesQS)
          (fun hne => hne h)
      · intro h
        exact absurd h hc
    · rw [hq]; rfl
    · intro e entries he hmem
      rw [hq] at hmem
      simp only [applyQuerySet, activeEntriesQS, if_pos] at hmem
      have := (List.mem_filter.mp hmem).2
      rw [he] at this
      simp at this

theorem detail_get_queryset_amended_witness :
    detail_get_queryset ⟨true, true⟩ (some "1") = allEntriesQS :=
  (detail_get_queryset_amended ⟨true, true⟩ (some "1")).1.mpr (by decide)

/-- C6: the category archive queryset filters entries by membership of the
category resolved from the URL slug — every entry it returns has that
category among its categories — and when no category matches the slug the
view raises not-found (`get_object_or_404`). -/
theorem category_queryset_filters (cats : List Category) (slug : String)
    (entries : List Entry) :
    ((∀ c ∈ cats, c.slugs.contains slug = false) →
      category_get_queryset cats slug entries =
        Except.error ViewError.doesNotExist
      ∧ ViewError.doesNotExist.isHttp404 = true)
    ∧ (∀ (cat : Category) (res : List Entry),
        categoryGetOr404 cats slug = Except.ok cat →
        category_get_queryset cats slug entries = Except.ok res →
        ∀ e ∈ res, cat.id ∈ e.categories) := by
  constructor
  · intro hnone
    have hfilter : cats.filter (fun c => c.slugs.contains slug) = [] := by
      rw [List.filter_eq_nil_iff]
      intro c hc
      rw [hnone c hc]
      simp
    refine ⟨?_, rfl⟩
    rw [category_get_queryset, categoryGetOr404, hfilter]
  · intro cat res hget hq e he
    rw [category_get_queryset, hget] at hq
    have hres : res = (applyQuerySet mixin_get_queryset entries).filter
        (fun e => e.categories.contains cat.id) := by
      cases hq
      rfl
    rw [hres] at he
    have := (List.mem_filter.mp he).2
    simpa using this

theorem category_queryset_filters_witness :
    category_get_queryset [⟨1, ["news"]⟩] "other"
        [⟨1, "s", 0, true, [1]⟩] =
      Except.error ViewError.doesNotExist :=
  ((category_queryset_filters [⟨1, ["news"]⟩] "other"
    [⟨1, "s", 0, true, [1]⟩]).1 (by decide)).1

/-- C7: `render_to_response` hands back the `(template_names, context)` pair
exactly when the request's `_feincms_extra_context` carries the `app_config`
key, and delegates to the framework's normal rendering exactly otherwise. -/
theorem render_to_response_app_config (e : Option (List String))
    (t : List String) (c : Nat) :
    (render_to_response e t c = Response.templateCtx t c ↔
      (e.getD []).contains "app_config" = true)
    ∧ (render_to_response e t c = Response.html t c false ↔
      (e.getD []).contains "app_config" = false) := by
  cases hc : (e.getD []).contains "app_config" <;>
    simp_all [render_to_response]

/-- C8: the detail view's POST handler returns exactly what the GET handler
returns on the same request and arguments. -/
theorem post_equals_get (i : ViewInput) : viewPost i = viewGet i := rfl

/-- C9: when the value passed to the detail view's finalize is not an
`HttpResponse` — such as the application-content `(template_names, context)`
pair — finalize returns it unchanged, no content block's finalize hook runs,
and no cache headers are added, whatever the session's frontend-editing
flag. -/
theorem finalize_non_response_unchanged (session : Option Bool)
    (blocks : List FinalizeBlock) (t : List String) (c : Nat) :
    finalize session blocks (Response.templateCtx t c) =
      (Response.templateCtx t c, [])
    ∧ (Response.templateCtx t c).isHttpResponse = false
    ∧ (finalize session blocks (Response.templateCtx t c)).1.neverCache
        = false :=
  ⟨rfl, rfl, rfl⟩

end Elephantblog
